import Mathlib

/-!
# A verification development for the `raspare` image-compositing language

This file gives a shallow embedding, in Lean 4, of the core of the
`raspare` interpreter: the pixel/image model (`src/image.rs`), the
alpha-compositing blend engine (`src/image/blend.rs`), the separable
Gaussian blur (`src/image/effect.rs`), and the expression evaluator
(`src/eval.rs`), together with theorems about them.

Embedding conventions:

* Rust `f32`/`f64` arithmetic is modelled by exact rational arithmetic
  (`ℚ`), except for the blur engine, whose Gaussian kernel needs `exp`
  and is therefore modelled over `ℝ` with `Real.exp`.
* Rust saturating casts (`as usize`, `as u8` on floats) are modelled
  explicitly: truncation toward zero, clamped to the target range.
* The mutable `Env` of the evaluator is threaded explicitly: evaluation
  returns the updated environment next to an `Except` result, mirroring
  the in-place mutation and early-return `?` of the Rust source.
* Recursion in `eval_expr` is not structurally decreasing (the `->`
  macro evaluates a freshly built node), so the evaluator takes a fuel
  parameter; running out of fuel is a distinguished error that the Rust
  program never produces.
* External collaborators that cannot be executed inside Lean are
  parameters of the evaluator, collected in `External`: the image codec
  behind `img-load`, the (noncomputable, `Real.exp`-based) blur, and
  the `f64` `Display` formatter that the `Display` instance of `List` uses.
-/

set_option maxHeartbeats 1000000

/-! ## Pixels and images (`src/image.rs`)

A pixel models `Rgba<u8>`: four channels. Channels are `ℕ` here; the
8-bit range shows up as `≤ 255` hypotheses where a theorem needs it.
An image models `struct Image { width, height, image: Array2<Rgba<u8>> }`;
the buffer is modelled as a total function, queried only in bounds. -/

structure Pixel where
  r : ℕ
  g : ℕ
  b : ℕ
  a : ℕ
  deriving DecidableEq

def Pixel.transparent : Pixel := ⟨0, 0, 0, 0⟩

structure Image where
  width : ℕ
  height : ℕ
  pix : ℕ → ℕ → Pixel

/-- `Image::new(width, height)`: every pixel `(0,0,0,0)`. -/
def Image.new (width height : ℕ) : Image :=
  { width := width, height := height, pix := fun _ _ => Pixel.transparent }

/-- `Image::set_pixel_unchecked`, as a functional update. -/
def Image.set_pixel (img : Image) (x y : ℕ) (c : Pixel) : Image :=
  { img with pix := fun x0 y0 => if x0 = x ∧ y0 = y then c else img.pix x0 y0 }

/-- Two images agree in dimensions and pixel-for-pixel inside them. -/
def Image.EqPix (i j : Image) : Prop :=
  i.width = j.width ∧ i.height = j.height ∧
    ∀ x y, x < i.width → y < i.height → i.pix x y = j.pix x y

/-- Every in-bounds pixel of `img` has alpha `v`. -/
def Image.allAlpha (img : Image) (v : ℕ) : Prop :=
  ∀ x y, x < img.width → y < img.height → (img.pix x y).a = v

/-- Every in-bounds pixel of `img` has 8-bit colour channels. -/
def Image.channels8 (img : Image) : Prop :=
  ∀ x y, x < img.width → y < img.height →
    (img.pix x y).r ≤ 255 ∧ (img.pix x y).g ≤ 255 ∧ (img.pix x y).b ≤ 255

/-! ## Numeric casts

`ratTrunc` is truncation toward zero, the rounding of every Rust
float-to-integer `as` cast. `f64AsUsize` and `f32AsU8` are the
saturating casts `as usize` / `as u8` on a nonnegative-or-not rational. -/

def ratTrunc (q : ℚ) : ℤ := if 0 ≤ q then ⌊q⌋ else ⌈q⌉

def f64AsUsize (q : ℚ) : ℕ :=
  if q < 0 then 0 else min (ratTrunc q).toNat (2 ^ 64 - 1)

def f32AsU8 (q : ℚ) : ℕ :=
  if q < 0 then 0 else min (ratTrunc q).toNat 255

/-- `u8::clamp(0, 255)` — the identity on an 8-bit value. -/
def clampU8 (n : ℕ) : ℕ := min n 255

/-- Rust `f64 % f64`: `fmod`, the remainder of truncated division. -/
def fRem (a b : ℚ) : ℚ := a - (ratTrunc (a / b) : ℚ) * b

/-! ## The blend engine (`src/image/blend.rs`) -/

inductive BlendMode where
  | Normal
  | Multiply
  | Screen
  | Overlay
  deriving DecidableEq

/-- `BlendMode::blend_pixel` from `src/image/blend.rs` (the copy the
evaluator imports, with the transparent-top short-circuit), with `f32`
arithmetic carried out in `ℚ`.  `B = top, A = bottom`. -/
def BlendMode.blend_pixel (mode : BlendMode) (top bottom : Pixel) : Pixel :=
  if top.a = 0 then bottom
  else
    let tr : ℚ := (top.r : ℚ) / 255
    let tg : ℚ := (top.g : ℚ) / 255
    let tb : ℚ := (top.b : ℚ) / 255
    let ta : ℚ := (top.a : ℚ) / 255
    let br : ℚ := (bottom.r : ℚ) / 255
    let bg : ℚ := (bottom.g : ℚ) / 255
    let bb : ℚ := (bottom.b : ℚ) / 255
    let ba : ℚ := (bottom.a : ℚ) / 255
    let alphaFinal : ℚ := (ba + ta) - ba * ta
    if alphaFinal = 0 then ⟨0, 0, 0, 0⟩
    else
      let tpr : ℚ := tr * ta
      let tpg : ℚ := tg * ta
      let tpb : ℚ := tb * ta
      let bpr : ℚ := br * ba
      let bpg : ℚ := bg * ba
      let bpb : ℚ := bb * ba
      let combine : ℚ → ℚ → ℚ :=
        match mode with
        | .Normal => fun b t => t + b * (1 - ta)
        | .Multiply => fun b t => t * b
        | .Screen => fun b t => 1 - (1 - t) * (1 - b)
        | .Overlay => fun b t =>
            if t < 0.5 then 2 * b * t else 1 - 2 * (1 - b) * (1 - t)
      Pixel.mk
        (clampU8 (f32AsU8 (combine bpr tpr / alphaFinal * 255)))
        (clampU8 (f32AsU8 (combine bpg tpg / alphaFinal * 255)))
        (clampU8 (f32AsU8 (combine bpb tpb / alphaFinal * 255)))
        (clampU8 (f32AsU8 (alphaFinal * 255)))

/-- The reference blend algorithm written from the words of the specification
(§4.4): normalize, Porter-Duff over-alpha, premultiply, combine by mode,
un-premultiply, scale to `[0,255]`, clamp, truncate to 8-bit. -/
def blendPixelSpec (mode : BlendMode) (top bottom : Pixel) : Pixel :=
  if top.a = 0 then bottom
  else
    let aTop : ℚ := (top.a : ℚ) / 255
    let aBot : ℚ := (bottom.a : ℚ) / 255
    let aOut : ℚ := (aBot + aTop) - aBot * aTop
    if aOut = 0 then ⟨0, 0, 0, 0⟩
    else
      let topPm : ℕ → ℚ := fun c => (c : ℚ) / 255 * aTop
      let botPm : ℕ → ℚ := fun c => (c : ℚ) / 255 * aBot
      let modeF : ℚ → ℚ → ℚ := fun bPm tPm =>
        match mode with
        | .Normal => tPm + bPm * (1 - aTop)
        | .Multiply => tPm * bPm
        | .Screen => 1 - (1 - tPm) * (1 - bPm)
        | .Overlay =>
            if tPm < 0.5 then 2 * bPm * tPm else 1 - 2 * (1 - bPm) * (1 - tPm)
      let outC : ℕ → ℕ → ℕ := fun tC bC =>
        (ratTrunc (min (max (modeF (botPm bC) (topPm tC) / aOut * 255) 0) 255)).toNat
      Pixel.mk (outC top.r bottom.r) (outC top.g bottom.g) (outC top.b bottom.b)
        ((ratTrunc (min (max (aOut * 255) 0) 255)).toNat)

/-- `Image::blend_images(&mut self, above, mode)`: the double loop over
the overlapping rectangle, writing each blended pixel into `self`.
Each iteration reads `self.width` (invariant under `set_pixel`) and the
pixel it is about to overwrite, exactly as the source does. -/
def Image.blend_images (img : Image) (above : Image) (mode : BlendMode) : Image :=
  (List.range (min img.height above.height)).foldl
    (fun acc y =>
      (List.range (min acc.width above.width)).foldl
        (fun acc2 x =>
          acc2.set_pixel x y (mode.blend_pixel (above.pix x y) (acc2.pix x y)))
        acc)
    img

/-! ## The resample engine (`src/image.rs`) -/

/-- `f64::ceil() as usize` (saturating), used by bilinear resize. -/
def f64CeilAsUsize (q : ℚ) : ℕ :=
  if q < 0 then 0 else min ⌈q⌉.toNat (2 ^ 64 - 1)

/-- `Image::resize_nearest_neighbour`. `src = ⌊dest · srcDim/destDim⌋`,
copied when in bounds, else left transparent. -/
def Image.resize_nearest_neighbour (img : Image) (nw nh : ℕ) : Image :=
  { width := nw, height := nh,
    pix := fun x y =>
      if x < nw ∧ y < nh then
        let xRatio : ℚ := (img.width : ℚ) / (nw : ℚ)
        let yRatio : ℚ := (img.height : ℚ) / (nh : ℚ)
        let srcX := f64AsUsize ((x : ℚ) * xRatio)
        let srcY := f64AsUsize ((y : ℚ) * yRatio)
        if srcX < img.width ∧ srcY < img.height then img.pix srcX srcY
        else Pixel.transparent
      else Pixel.transparent }

/-- `Image::resize_bilinear`: four neighbour samples clamped to source
bounds, per-channel bilinear interpolation, truncating `as u8` casts and
the (no-op) clamp of the source. -/
def Image.resize_bilinear (img : Image) (nw nh : ℕ) : Image :=
  { width := nw, height := nh,
    pix := fun x y =>
      if x < nw ∧ y < nh then
        let xRatio : ℚ := (img.width : ℚ) / (nw : ℚ)
        let yRatio : ℚ := (img.height : ℚ) / (nh : ℚ)
        let srcX : ℚ := (x : ℚ) * xRatio
        let srcY : ℚ := (y : ℚ) * yRatio
        let x1 := f64AsUsize srcX
        let y1 := f64AsUsize srcY
        let x2 := min (f64CeilAsUsize srcX) (img.width - 1)
        let y2 := min (f64CeilAsUsize srcY) (img.height - 1)
        let pa := img.pix x1 y1
        let pb := img.pix x2 y1
        let pc := img.pix x1 y2
        let pd := img.pix x2 y2
        let xd : ℚ := srcX - (⌊srcX⌋ : ℚ)
        let yd : ℚ := srcY - (⌊srcY⌋ : ℚ)
        let chan : (Pixel → ℕ) → ℕ := fun sel =>
          clampU8 (f32AsU8
            ((sel pa : ℚ) * (1 - xd) * (1 - yd) +
             (sel pb : ℚ) * xd * (1 - yd) +
             (sel pc : ℚ) * (1 - xd) * yd +
             (sel pd : ℚ) * xd * yd))
        Pixel.mk (chan Pixel.r) (chan Pixel.g) (chan Pixel.b) (chan Pixel.a)
      else Pixel.transparent }

/-- Round half away from zero, the rounding §4.5 prescribes for the
translate deltas. -/
def roundHalfAway (q : ℚ) : ℤ :=
  if 0 ≤ q then ⌊q + 1 / 2⌋ else -⌊-q + 1 / 2⌋

/-- Modelled from the spec: `Image::shift_with_empty` is called by the
`img-move` arm of `eval_expr` but its definition is not under `src/`.
§4.5 Translate: integer delta by round-half-away-from-zero (scaled by
the current dimension when `fractional`), new dimensions `old + |delta|`
per axis, every source pixel mapped by the (nonnegative part of the)
offset, destinations never written remaining transparent. -/
def Image.shift_with_empty (img : Image) (x y : ℚ) (fractional : Bool) : Image :=
  let dx := roundHalfAway (if fractional then x * (img.width : ℚ) else x)
  let dy := roundHalfAway (if fractional then y * (img.height : ℚ) else y)
  let ox := dx.toNat
  let oy := dy.toNat
  { width := img.width + dx.natAbs, height := img.height + dy.natAbs,
    pix := fun X Y =>
      if ox ≤ X ∧ X < ox + img.width ∧ oy ≤ Y ∧ Y < oy + img.height then
        img.pix (X - ox) (Y - oy)
      else Pixel.transparent }

/-! ## The blur engine (`src/image/effect.rs`)

`f32` planes are modelled over `ℝ` because the Gaussian kernel needs
`exp`; everything downstream of the kernel is therefore `ℝ`-valued and
noncomputable. Planes are indexed `(y, x)` like the `Array2` of `ndarray`. -/

/-- `gaussian_kernel_1d(sigma, radius)`: raw values
`exp(-0.5 · (x/sigma)²)` for `x = i - radius`, then normalized by the
raw sum. -/
noncomputable def gaussian_kernel_1d (sigma : ℝ) (radius : ℕ) : List ℝ :=
  let raw := (List.range (2 * radius + 1)).map
    (fun (i : ℕ) => Real.exp (-0.5 * ((((i : ℤ) - (radius : ℤ) : ℤ) : ℝ) / sigma) ^ 2))
  raw.map (fun v => v / raw.sum)

/-- The inner accumulation loop of `convolve_1d`: walk the kernel,
adding `kernel[k] * line[pos + k - radius]` whenever that index is in
`[0, len)` and skipping it otherwise. -/
def convLine (kernel : List ℝ) (radius : ℕ) (len : ℕ) (line : ℕ → ℝ) (pos : ℕ) : ℝ :=
  (List.range kernel.length).foldl
    (fun (acc : ℝ) (k : ℕ) =>
      let ix : ℤ := (pos : ℤ) + ((k : ℤ) - (radius : ℤ))
      if 0 ≤ ix ∧ ix < (len : ℤ) then acc + kernel.getD k 0 * line ix.toNat else acc)
    0

/-- `convolve_1d(input, kernel, Axis(1))`: rows, horizontal pass.
`radius = kernel.len() / 2`. Samples outside the written `0..width`
region keep the cloned input value, as in the source. -/
def convolve_1d_rows (input : ℕ → ℕ → ℝ) (width : ℕ) (kernel : List ℝ) : ℕ → ℕ → ℝ :=
  fun y x =>
    if x < width then convLine kernel (kernel.length / 2) width (fun i => input y i) x
    else input y x

/-- `convolve_1d(input, kernel, Axis(0))`: columns, vertical pass. -/
def convolve_1d_cols (input : ℕ → ℕ → ℝ) (height : ℕ) (kernel : List ℝ) : ℕ → ℕ → ℝ :=
  fun y x =>
    if y < height then convLine kernel (kernel.length / 2) height (fun i => input i x) y
    else input y x

/-- `f32 as u8` on a real value: saturating truncation. -/
noncomputable def realAsU8 (v : ℝ) : ℕ :=
  if v < 0 then 0 else min ⌊v⌋.toNat 255

/-- `Image::blur(radius)`: early return at radius 0; otherwise
`sigma = radius / 3`, one kernel, each of the four channels (alpha
included) convolved horizontally then vertically, written back with
truncating casts. -/
noncomputable def Image.blur (img : Image) (radius : ℕ) : Image :=
  if radius = 0 then img
  else
    let sigma : ℝ := (radius : ℝ) / 3
    let kernel := gaussian_kernel_1d sigma radius
    let chan : (Pixel → ℕ) → ℕ → ℕ → ℝ := fun sel y x => (sel (img.pix x y) : ℝ)
    let blurOne : (ℕ → ℕ → ℝ) → ℕ → ℕ → ℝ := fun c =>
      convolve_1d_cols (convolve_1d_rows c img.width kernel) img.height kernel
    { width := img.width, height := img.height,
      pix := fun x y =>
        Pixel.mk
          (realAsU8 (blurOne (chan Pixel.r) y x))
          (realAsU8 (blurOne (chan Pixel.g) y x))
          (realAsU8 (blurOne (chan Pixel.b) y x))
          (realAsU8 (blurOne (chan Pixel.a) y x)) }

/-! ## The AST (`src/parse.rs`)

The `List` type of the parser; renamed `LExpr` because `List` is taken
by the Lean core type. Source spans only feed error reporting, which the
claims do not mention, so they are dropped. -/

inductive LExpr where
  | Error : LExpr
  | Nil : LExpr
  | Int : ℤ → LExpr
  | Float : ℚ → LExpr
  | Str : String → LExpr
  | Sym : String → LExpr
  | Cons : List LExpr → LExpr
  | Vec : List LExpr → LExpr
  | Quote : LExpr → LExpr

/-! ## Values, errors, environment (`src/eval.rs`) -/

inductive DataType where
  | Nil : DataType
  | Number : ℚ → DataType
  | Str : String → DataType
  | Sym : String → DataType
  | Image : Image → DataType

/-- `DataType::type_name`. -/
def DataType.type_name : DataType → String
  | .Nil => "nil"
  | .Number _ => "number"
  | .Str _ => "string"
  | .Sym _ => "symbol"
  | .Image _ => "image"

/-- The distinct error outcomes of `eval_expr`.  The Rust source
produces `Rich` errors carrying formatted messages; each constructor
here stands for one `err!` site (or `unimplemented!`/fuel artifacts). -/
inductive EvalErr where
  | panicHit : EvalErr
  | fuelOut : EvalErr
  | undefinedSymbol : String → EvalErr
  | emptyApplication : EvalErr
  | missingArgument : String → EvalErr
  | typeMismatch : String → String → String → EvalErr
  | widthHeightMustBeNumbers : EvalErr
  | imageLoadFailed : String → EvalErr
  | pathMustBeString : EvalErr
  | imageMustBeImage : EvalErr
  | noCanvas : EvalErr
  | unknownMethod : String → EvalErr
  | unknownBlendMode : String → EvalErr
  | negativeBlurRadius : EvalErr
  | emptyPipelineFunction : EvalErr
  | unsupportedPipelineStep : String → EvalErr
  | divisionByZero : EvalErr
  | unknownFunction : String → EvalErr
  deriving DecidableEq

/-- `Env { vars: HashMap<String, DataType>, canvas: Option<Image> }`.
The map is an association list; `set` prepends (insert-overwrite
observationally), `get` takes the most recent binding. -/
structure Env where
  vars : List (String × DataType)
  canvas : Option Image

def Env.new : Env := { vars := [], canvas := none }

def Env.set (env : Env) (name : String) (value : DataType) : Env :=
  { env with vars := (name, value) :: env.vars }

def Env.get (env : Env) (name : String) : Option DataType :=
  env.vars.lookup name

/-- The external collaborators of the evaluator: the raster codec behind
`img-load`, the blur (noncomputable over `ℝ`, hence a parameter), and
the `f64` `Display` formatting used when an AST node is rendered. -/
structure External where
  loadImage : String → Option Image
  blurImage : Image → ℕ → Image
  showFloat : ℚ → String

/-- The quote character, code point 39, kept out of string literals. -/
def quoteChar : Char := Char.ofNat 39

mutual

/-- `impl fmt::Display for List` (`src/parse.rs`): the textual
rendering of an AST node. -/
def render (ext : External) : LExpr → String
  | .Error => "<error>"
  | .Nil => "nil"
  | .Int n => toString n
  | .Float x => ext.showFloat x
  | .Str s => s
  | .Sym s => s
  | .Cons es => "(" ++ renderItems ext es ++ ")"
  | .Vec es => "[" ++ renderItems ext es ++ "]"
  | .Quote e => quoteChar.toString ++ render ext e

/-- Items joined by single spaces. -/
def renderItems (ext : External) : List LExpr → String
  | [] => ""
  | [e] => render ext e
  | e :: rest => render ext e ++ " " ++ renderItems ext rest

end

/-! ## The evaluator (`src/eval.rs`)

`eval_expr` takes fuel (the Rust recursion is not structural: the `->`
arm evaluates a freshly built node). Each built-in operator arm is its
own definition, taking the one-step-smaller evaluator `ev` as an
argument; `eval_expr` ties the knot. Errors thread the environment as
mutated so far, like the Rust `?`. -/

/-- The `check!` macro at type `Number`. -/
def checkNumber (name : String) (r : Env × Except EvalErr DataType) :
    Env × Except EvalErr ℚ :=
  match r with
  | (env, .ok (.Number n)) => (env, .ok n)
  | (env, .ok v) => (env, .error (.typeMismatch name "Number" v.type_name))
  | (env, .error e) => (env, .error e)

/-- The `check!` macro at type `Image`. -/
def checkImage (name : String) (r : Env × Except EvalErr DataType) :
    Env × Except EvalErr Image :=
  match r with
  | (env, .ok (.Image i)) => (env, .ok i)
  | (env, .ok v) => (env, .error (.typeMismatch name "Image" v.type_name))
  | (env, .error e) => (env, .error e)

/-- The `check!` macro at type `Sym`. -/
def checkSym (name : String) (r : Env × Except EvalErr DataType) :
    Env × Except EvalErr String :=
  match r with
  | (env, .ok (.Sym s)) => (env, .ok s)
  | (env, .ok v) => (env, .error (.typeMismatch name "Sym" v.type_name))
  | (env, .error e) => (env, .error e)

/-- The blend-mode name table of the `img-mix` arm. -/
def parseBlendMode : String → Option BlendMode
  | "normal" => some .Normal
  | "multiply" => some .Multiply
  | "screen" => some .Screen
  | "overlay" => some .Overlay
  | _ => none

/-- The `canvas` arm: evaluate both operands, require two Numbers,
install a fresh transparent canvas, return Nil. -/
def evalCanvas (ev : Env → LExpr → Env × Except EvalErr DataType)
    (env : Env) (args : List LExpr) : Env × Except EvalErr DataType :=
  match args with
  | [] => (env, .error (.missingArgument "missing width for canvas"))
  | [_] => (env, .error (.missingArgument "missing height for canvas"))
  | we :: he :: _ =>
    match ev env we with
    | (env1, .error e) => (env1, .error e)
    | (env1, .ok wv) =>
      match ev env1 he with
      | (env2, .error e) => (env2, .error e)
      | (env2, .ok hv) =>
        match wv, hv with
        | .Number w, .Number h =>
          ({ env2 with canvas := some (Image.new (f64AsUsize w) (f64AsUsize h)) },
            .ok .Nil)
        | _, _ => (env2, .error .widthHeightMustBeNumbers)

/-- The `img-load` arm. -/
def evalImgLoad (ext : External) (ev : Env → LExpr → Env × Except EvalErr DataType)
    (env : Env) (args : List LExpr) : Env × Except EvalErr DataType :=
  match args with
  | [] => (env, .error (.missingArgument "missing path for load"))
  | pe :: _ =>
    match ev env pe with
    | (env1, .error e) => (env1, .error e)
    | (env1, .ok pv) =>
      match pv with
      | .Str path =>
        match ext.loadImage path with
        | some img => (env1, .ok (.Image img))
        | none => (env1, .error (.imageLoadFailed path))
      | _ => (env1, .error .pathMustBeString)

/-- The `img-render` arm: blend the image over the canvas in Normal
mode, in place; `NoCanvas` when none is defined. -/
def evalImgRender (ev : Env → LExpr → Env × Except EvalErr DataType)
    (env : Env) (args : List LExpr) : Env × Except EvalErr DataType :=
  match args with
  | [] => (env, .error (.missingArgument "missing image for render"))
  | ie :: _ =>
    match ev env ie with
    | (env1, .error e) => (env1, .error e)
    | (env1, .ok v) =>
      match v with
      | .Image img =>
        match env1.canvas with
        | some c =>
          ({ env1 with canvas := some (c.blend_images img .Normal) }, .ok .Nil)
        | none => (env1, .error .noCanvas)
      | _ => (env1, .error .imageMustBeImage)

/-- The `img-resize` arm. -/
def evalImgResize (ev : Env → LExpr → Env × Except EvalErr DataType)
    (env : Env) (args : List LExpr) : Env × Except EvalErr DataType :=
  match args with
  | [] => (env, .error (.missingArgument "missing image for resize"))
  | [_] => (env, .error (.missingArgument "missing resize method for resize"))
  | [_, _] => (env, .error (.missingArgument "missing width for resize"))
  | [_, _, _] => (env, .error (.missingArgument "missing height for resize"))
  | ie :: me :: we :: he :: _ =>
    match checkImage "image" (ev env ie) with
    | (env1, .error e) => (env1, .error e)
    | (env1, .ok img) =>
      match checkSym "method" (ev env1 me) with
      | (env2, .error e) => (env2, .error e)
      | (env2, .ok m) =>
        match checkNumber "width" (ev env2 we) with
        | (env3, .error e) => (env3, .error e)
        | (env3, .ok w) =>
          match checkNumber "height" (ev env3 he) with
          | (env4, .error e) => (env4, .error e)
          | (env4, .ok h) =>
            match m with
            | "nearest" | "nearest-neighbor" | "nearest-neighbour" | "nn" =>
              (env4, .ok (.Image (img.resize_nearest_neighbour
                (f64AsUsize w) (f64AsUsize h))))
            | "bilinear" | "b" =>
              (env4, .ok (.Image (img.resize_bilinear
                (f64AsUsize w) (f64AsUsize h))))
            | _ => (env4, .error (.unknownMethod m))

/-- The `img-move` arm.  With exactly three operands, `next_or_default!`
in the source returns `Ok(Sym "pixels")` from the whole call
before evaluating anything. -/
def evalImgMove (ev : Env → LExpr → Env × Except EvalErr DataType)
    (env : Env) (args : List LExpr) : Env × Except EvalErr DataType :=
  match args with
  | [] => (env, .error (.missingArgument "missing image for move"))
  | [_] => (env, .error (.missingArgument "missing x offset for move"))
  | [_, _] => (env, .error (.missingArgument "missing y offset for move"))
  | [_, _, _] => (env, .ok (.Sym "pixels"))
  | ie :: xe :: ye :: me :: _ =>
    match checkImage "image" (ev env ie) with
    | (env1, .error e) => (env1, .error e)
    | (env1, .ok img) =>
      match checkNumber "x" (ev env1 xe) with
      | (env2, .error e) => (env2, .error e)
      | (env2, .ok x) =>
        match checkNumber "y" (ev env2 ye) with
        | (env3, .error e) => (env3, .error e)
        | (env3, .ok y) =>
          match checkSym "method" (ev env3 me) with
          | (env4, .error e) => (env4, .error e)
          | (env4, .ok m) =>
            match m with
            | "pixel" | "pixels" | "px" =>
              (env4, .ok (.Image (img.shift_with_empty x y false)))
            | "frac" | "fract" | "fraction" | "fractions" =>
              (env4, .ok (.Image (img.shift_with_empty x y true)))
            | _ => (env4, .error (.unknownMethod m))

/-- The `img-mix` arm: first operand is the bottom, second the top. -/
def evalImgMix (ev : Env → LExpr → Env × Except EvalErr DataType)
    (env : Env) (args : List LExpr) : Env × Except EvalErr DataType :=
  match args with
  | [] => (env, .error (.missingArgument "missing first image for mix"))
  | [_] => (env, .error (.missingArgument "missing second image for mix"))
  | [_, _] => (env, .error (.missingArgument "missing blend mode for mix"))
  | ae :: be :: me :: _ =>
    match checkImage "image_a" (ev env ae) with
    | (env1, .error e) => (env1, .error e)
    | (env1, .ok a) =>
      match checkImage "image_b" (ev env1 be) with
      | (env2, .error e) => (env2, .error e)
      | (env2, .ok b) =>
        match checkSym "mode" (ev env2 me) with
        | (env3, .error e) => (env3, .error e)
        | (env3, .ok m) =>
          match parseBlendMode m with
          | some bm => (env3, .ok (.Image (a.blend_images b bm)))
          | none => (env3, .error (.unknownBlendMode m))

/-- The `eff-blur` arm. -/
def evalEffBlur (ext : External) (ev : Env → LExpr → Env × Except EvalErr DataType)
    (env : Env) (args : List LExpr) : Env × Except EvalErr DataType :=
  match args with
  | [] => (env, .error (.missingArgument "missing image for blur"))
  | [_] => (env, .error (.missingArgument "missing radius for blur"))
  | ie :: re :: _ =>
    match checkImage "image" (ev env ie) with
    | (env1, .error e) => (env1, .error e)
    | (env1, .ok img) =>
      match checkNumber "radius" (ev env1 re) with
      | (env2, .error e) => (env2, .error e)
      | (env2, .ok radius) =>
        if radius < 0 then (env2, .error .negativeBlurRadius)
        else (env2, .ok (.Image (ext.blurImage img (f64AsUsize radius))))

/-- The `def` arm: the name operand is never evaluated; its textual
rendering is bound to the evaluated value. -/
def evalDef (ext : External) (ev : Env → LExpr → Env × Except EvalErr DataType)
    (env : Env) (args : List LExpr) : Env × Except EvalErr DataType :=
  match args with
  | [] => (env, .error (.missingArgument "missing variable name for def"))
  | [_] => (env, .error (.missingArgument "missing value for variable"))
  | ne :: ve :: _ =>
    match ev env ve with
    | (env1, .error e) => (env1, .error e)
    | (env1, .ok v) => (env1.set (render ext ne) v, .ok .Nil)

/-- The rewrite loop of the `->` arm, threading the accumulator through
the remaining steps. -/
def pipeRewrite (ext : External) : LExpr → List LExpr → Except EvalErr LExpr
  | r, [] => .ok r
  | r, f :: rest =>
    match f with
    | .Sym s => pipeRewrite ext (.Cons [.Sym s, r]) rest
    | .Cons [] => .error .emptyPipelineFunction
    | .Cons (x :: xs) => pipeRewrite ext (.Cons (x :: r :: xs)) rest
    | e => .error (.unsupportedPipelineStep (render ext e))

/-- The `->` arm: with no steps, evaluate the first operand directly;
otherwise rewrite first and evaluate the accumulated node. -/
def evalArrow (ext : External) (ev : Env → LExpr → Env × Except EvalErr DataType)
    (env : Env) (args : List LExpr) : Env × Except EvalErr DataType :=
  match args with
  | [] => (env, .error (.missingArgument "missing first argument for arrow"))
  | first :: fns =>
    if fns.isEmpty then ev env first
    else
      match pipeRewrite ext first fns with
      | .error e => (env, .error e)
      | .ok result => ev env result

/-- The arithmetic arm (`+ - * / %`): both operands must be Numbers;
`/` and `%` by zero fail.  `op` is the text of the operator symbol,
matched again as in the source; the catch-all mirrors `unreachable!`. -/
def evalArith (ev : Env → LExpr → Env × Except EvalErr DataType)
    (env : Env) (op : String) (args : List LExpr) : Env × Except EvalErr DataType :=
  match args with
  | [] => (env, .error (.missingArgument "missing first argument for arithmetic operation"))
  | [_] => (env, .error (.missingArgument "missing second argument for arithmetic operation"))
  | ae :: be :: _ =>
    match checkNumber "a" (ev env ae) with
    | (env1, .error e) => (env1, .error e)
    | (env1, .ok a) =>
      match checkNumber "b" (ev env1 be) with
      | (env2, .error e) => (env2, .error e)
      | (env2, .ok b) =>
        match op with
        | "+" => (env2, .ok (.Number (a + b)))
        | "-" => (env2, .ok (.Number (a - b)))
        | "*" => (env2, .ok (.Number (a * b)))
        | "/" =>
          if b = 0 then (env2, .error .divisionByZero)
          else (env2, .ok (.Number (a / b)))
        | "%" =>
          if b = 0 then (env2, .error .divisionByZero)
          else (env2, .ok (.Number (fRem a b)))
        | _ => (env2, .error .panicHit)

/-- `eval_expr` (`src/eval.rs`), with fuel.  The `unimplemented!` arms
(`Error`, `Nil`, non-symbol `Quote`, `Vec`) surface as `panicHit`. -/
def eval_expr (ext : External) : ℕ → Env → LExpr → Env × Except EvalErr DataType
  | 0, env, _ => (env, .error .fuelOut)
  | fuel + 1, env, e =>
    match e with
    | .Error => (env, .error .panicHit)
    | .Nil => (env, .error .panicHit)
    | .Int n => (env, .ok (.Number (n : ℚ)))
    | .Float x => (env, .ok (.Number x))
    | .Str s => (env, .ok (.Str s))
    | .Sym s =>
      match env.get s with
      | some v => (env, .ok v)
      | none => (env, .error (.undefinedSymbol s))
    | .Quote q =>
      match q with
      | .Sym s => (env, .ok (.Sym s))
      | _ => (env, .error .panicHit)
    | .Vec _ => (env, .error .panicHit)
    | .Cons [] => (env, .error .emptyApplication)
    | .Cons (f :: args) =>
      match f with
      | .Sym s =>
        match s with
        | "canvas" => evalCanvas (eval_expr ext fuel) env args
        | "img-load" => evalImgLoad ext (eval_expr ext fuel) env args
        | "img-render" => evalImgRender (eval_expr ext fuel) env args
        | "img-resize" => evalImgResize (eval_expr ext fuel) env args
        | "img-move" => evalImgMove (eval_expr ext fuel) env args
        | "img-mix" => evalImgMix (eval_expr ext fuel) env args
        | "eff-blur" => evalEffBlur ext (eval_expr ext fuel) env args
        | "def" => evalDef ext (eval_expr ext fuel) env args
        | "->" => evalArrow ext (eval_expr ext fuel) env args
        | "+" | "-" | "*" | "/" | "%" => evalArith (eval_expr ext fuel) env s args
        | _ => (env, .error (.unknownFunction (render ext (.Sym s))))
      | _ => (env, .error (.unknownFunction (render ext f)))

/-! ## Concrete fixtures for witnesses and counterexamples -/

/-- External collaborators for programs that use none of them: no file
ever loads, blur is the identity, floats render empty. -/
def extId : External :=
  { loadImage := fun _ => none, blurImage := fun img _ => img, showFloat := fun _ => "" }

/-- External collaborators with the real (noncomputable) blur. -/
noncomputable def extBlur : External :=
  { loadImage := fun _ => none, blurImage := Image.blur, showFloat := fun _ => "" }

/-- Project the width of an `Image`-valued evaluation result. -/
def imageWidthOf (r : Env × Except EvalErr DataType) : Option ℕ :=
  match r.2 with
  | .ok (.Image i) => some i.width
  | _ => none

def imgA : Image := Image.new 2 1

def imgB : Image := Image.new 1 1

/-- A 1×1 fully opaque image. -/
def imgBop : Image := { width := 1, height := 1, pix := fun _ _ => ⟨0, 0, 0, 255⟩ }

def envMix : Env := (Env.new.set "a" (.Image imgA)).set "b" (.Image imgB)

def envMixOp : Env := (Env.new.set "a" (.Image imgA)).set "b" (.Image imgBop)

def envImg : Env := Env.new.set "x" (.Image imgB)

/-- The program mixing variables a and b in normal mode, with the mode
given as a quoted symbol. -/
def mixProg : LExpr := .Cons [.Sym "img-mix", .Sym "a", .Sym "b", .Quote (.Sym "normal")]

/-- `(-> 5 (+ 1) (* 2))`. -/
def arrowProg1 : LExpr :=
  .Cons [.Sym "->", .Int 5, .Cons [.Sym "+", .Int 1], .Cons [.Sym "*", .Int 2]]

/-- `(-> 5)`. -/
def arrowProg2 : LExpr := .Cons [.Sym "->", .Int 5]

/-- `(canvas (- 0 1) 2)`. -/
def canvasNegProg : LExpr :=
  .Cons [.Sym "canvas", .Cons [.Sym "-", .Int 0, .Int 1], .Int 2]

/-- `(/ 1 0)`. -/
def divZeroProg : LExpr := .Cons [.Sym "/", .Int 1, .Int 0]

/-- `(% 1 0)`. -/
def modZeroProg : LExpr := .Cons [.Sym "%", .Int 1, .Int 0]

/-- `(def (a b) 1)` — the variable "name" is a parenthesized list. -/
def defConsProg : LExpr := .Cons [.Sym "def", .Cons [.Sym "a", .Sym "b"], .Int 1]

/-- `(def 5 "v")` — the variable "name" is an integer literal. -/
def defIntProg : LExpr := .Cons [.Sym "def", .Int 5, .Str "v"]

/-- `(img-render x)`. -/
def renderXProg : LExpr := .Cons [.Sym "img-render", .Sym "x"]

/-! ## Supporting lemmas -/

theorem ratTrunc_of_nonneg {q : ℚ} (h : 0 ≤ q) : ratTrunc q = ⌊q⌋ := if_pos h

theorem clampCast_eq (q : ℚ) :
    clampU8 (f32AsU8 q) = (ratTrunc (min (max q 0) 255)).toNat := by
  by_cases hq : q < 0
  · have hmax : max q 0 = 0 := max_eq_right hq.le
    simp [clampU8, f32AsU8, ratTrunc, hq, hmax]
  · push_neg at hq
    have h255 : (0 : ℚ) ≤ 255 := by norm_num
    have hmax : max q 0 = q := max_eq_left hq
    have hmin : 0 ≤ min q 255 := le_min hq h255
    rw [hmax, clampU8, f32AsU8, if_neg (not_lt.mpr hq),
      ratTrunc_of_nonneg hq, ratTrunc_of_nonneg hmin]
    rcases le_total q 255 with hle | hge
    · rw [min_eq_left hle]
      have hfl : ⌊q⌋ ≤ 255 := by
        have := Int.floor_le_floor hle
        simpa using this
      have h0 : 0 ≤ ⌊q⌋ := Int.floor_nonneg.mpr hq
      omega
    · rw [min_eq_right hge]
      have hfl : 255 ≤ ⌊q⌋ := by
        rw [Int.le_floor]; exact_mod_cast hge
      have : ⌊(255 : ℚ)⌋ = 255 := by norm_num
      omega

theorem foldl_blend_row (above : Image) (mode : BlendMode) (y : ℕ) :
    ∀ (n : ℕ) (acc : Image),
      (List.range n).foldl
        (fun acc2 x => acc2.set_pixel x y (mode.blend_pixel (above.pix x y) (acc2.pix x y))) acc =
      { acc with pix := fun x0 y0 =>
          if x0 < n ∧ y0 = y then mode.blend_pixel (above.pix x0 y0) (acc.pix x0 y0)
          else acc.pix x0 y0 } := by
  intro n
  induction n with
  | zero => intro acc; simp
  | succ n ih =>
    intro acc
    rw [List.range_succ, List.foldl_append, List.foldl_cons, List.foldl_nil, ih]
    simp only [Image.set_pixel]
    congr 1
    funext x0 y0
    by_cases hx : x0 = n
    · subst hx
      by_cases hy : y0 = y
      · subst hy; simp [lt_irrefl]
      · simp [hy]
    · by_cases hy : y0 = y
      · subst hy
        by_cases hlt : x0 < n
        · simp [hx, hlt, Nat.lt_succ_of_lt hlt]
        · have hns : ¬ x0 < n + 1 := by omega
          simp [hx, hlt, hns]
      · simp [hx, hy]

theorem foldl_blend_rows (above : Image) (mode : BlendMode) :
    ∀ (m : ℕ) (acc : Image),
      (List.range m).foldl
        (fun acc y =>
          (List.range (min acc.width above.width)).foldl
            (fun acc2 x => acc2.set_pixel x y (mode.blend_pixel (above.pix x y) (acc2.pix x y)))
            acc) acc =
      { acc with pix := fun x0 y0 =>
          if x0 < min acc.width above.width ∧ y0 < m then
            mode.blend_pixel (above.pix x0 y0) (acc.pix x0 y0)
          else acc.pix x0 y0 } := by
  intro m
  induction m with
  | zero => intro acc; simp
  | succ m ih =>
    intro acc
    rw [List.range_succ, List.foldl_append, List.foldl_cons, List.foldl_nil, ih]
    rw [foldl_blend_row]
    congr 1
    funext x0 y0
    by_cases hy : y0 = m
    · subst hy
      by_cases hx : x0 < min acc.width above.width
      · simp [hx, lt_irrefl, Nat.lt_succ_self]
      · simp [hx]
    · by_cases hylt : y0 < m
      · have : y0 < m + 1 := by omega
        by_cases hx : x0 < min acc.width above.width
        · simp [hx, hy, hylt, this]
        · simp [hx]
      · have hns : ¬ y0 < m + 1 := by omega
        simp [hy, hylt, hns]

theorem blend_images_eq (img above : Image) (mode : BlendMode) :
    img.blend_images above mode =
    { img with pix := fun x y =>
        if x < min img.width above.width ∧ y < min img.height above.height then
          mode.blend_pixel (above.pix x y) (img.pix x y)
        else img.pix x y } := by
  unfold Image.blend_images
  rw [foldl_blend_rows]

theorem blend_images_width (img above : Image) (mode : BlendMode) :
    (img.blend_images above mode).width = img.width := by
  rw [blend_images_eq]

theorem blend_images_height (img above : Image) (mode : BlendMode) :
    (img.blend_images above mode).height = img.height := by
  rw [blend_images_eq]

theorem blend_pixel_transparent_top (m : BlendMode) (t b : Pixel) (h : t.a = 0) :
    m.blend_pixel t b = b := by
  simp [BlendMode.blend_pixel, h]

theorem clampCast_natCast {c : ℕ} (hc : c ≤ 255) : clampU8 (f32AsU8 (c : ℚ)) = c := by
  rw [clampU8, f32AsU8, if_neg (not_lt.mpr (Nat.cast_nonneg c)),
    ratTrunc_of_nonneg (Nat.cast_nonneg c), Int.floor_natCast]
  simp; omega

theorem clampCast_255 : clampU8 (f32AsU8 (255 : ℚ)) = 255 := by
  have h : ((255 : ℕ) : ℚ) = 255 := by norm_num
  rw [← h, clampCast_natCast le_rfl]

theorem blend_pixel_normal_opaque (t b : Pixel) (ha : t.a = 255)
    (hr : t.r ≤ 255) (hg : t.g ≤ 255) (hbb : t.b ≤ 255) :
    BlendMode.Normal.blend_pixel t b = t := by
  obtain ⟨tr, tg, tb, ta⟩ := t
  simp only at hr hg hbb
  simp only [Pixel.mk.injEq] at ha
  subst ha
  simp only [BlendMode.blend_pixel]
  norm_num
  exact ⟨clampCast_natCast hr, clampCast_natCast hg, clampCast_natCast hbb, clampCast_255⟩

theorem checkNumber_ok {name : String} {r : Env × Except EvalErr DataType} {env : Env} {q : ℚ}
    (h : checkNumber name r = (env, .ok q)) : r = (env, .ok (.Number q)) := by
  rcases r with ⟨e0, x⟩
  rcases x with er | v
  · simp [checkNumber] at h
  · cases v <;> simp [checkNumber] at h
    obtain ⟨rfl, rfl⟩ := h
    rfl

theorem checkImage_ok {name : String} {r : Env × Except EvalErr DataType} {env : Env} {i : Image}
    (h : checkImage name r = (env, .ok i)) : r = (env, .ok (.Image i)) := by
  rcases r with ⟨e0, x⟩
  rcases x with er | v
  · simp [checkImage] at h
  · cases v <;> simp [checkImage] at h
    obtain ⟨rfl, rfl⟩ := h
    rfl

theorem checkSym_ok {name : String} {r : Env × Except EvalErr DataType} {env : Env} {s : String}
    (h : checkSym name r = (env, .ok s)) : r = (env, .ok (.Sym s)) := by
  rcases r with ⟨e0, x⟩
  rcases x with er | v
  · simp [checkSym] at h
  · cases v <;> simp [checkSym] at h
    obtain ⟨rfl, rfl⟩ := h
    rfl

theorem evalCanvas_ok_nil {ev : Env → LExpr → Env × Except EvalErr DataType} {env : Env}
    {args : List LExpr} {env2 : Env} {v : DataType}
    (h : evalCanvas ev env args = (env2, Except.ok v)) : v = DataType.Nil := by
  unfold evalCanvas at h
  repeat' split at h
  all_goals simp_all

theorem evalImgRender_ok_nil {ev : Env → LExpr → Env × Except EvalErr DataType} {env : Env}
    {args : List LExpr} {env2 : Env} {v : DataType}
    (h : evalImgRender ev env args = (env2, Except.ok v)) : v = DataType.Nil := by
  unfold evalImgRender at h
  repeat' split at h
  all_goals simp_all

theorem evalDef_ok_nil {ext : External} {ev : Env → LExpr → Env × Except EvalErr DataType}
    {env : Env} {args : List LExpr} {env2 : Env} {v : DataType}
    (h : evalDef ext ev env args = (env2, Except.ok v)) : v = DataType.Nil := by
  unfold evalDef at h
  repeat' split at h
  all_goals simp_all

theorem evalImgLoad_ok_env {ext : External} {ev : Env → LExpr → Env × Except EvalErr DataType}
    {env : Env} {args : List LExpr} {env2 : Env} {v : DataType}
    (hev : ∀ env e env2 v, ev env e = (env2, Except.ok v) → v ≠ DataType.Nil → env2 = env)
    (h : evalImgLoad ext ev env args = (env2, Except.ok v)) : env2 = env := by
  unfold evalImgLoad at h
  repeat' split at h
  all_goals simp_all
  exact hev _ _ _ _ (by assumption) (by simp)

theorem evalEffBlur_ok_env {ext : External} {ev : Env → LExpr → Env × Except EvalErr DataType}
    {env : Env} {args : List LExpr} {env2 : Env} {v : DataType}
    (hev : ∀ env e env2 v, ev env e = (env2, Except.ok v) → v ≠ DataType.Nil → env2 = env)
    (h : evalEffBlur ext ev env args = (env2, Except.ok v)) : env2 = env := by
  unfold evalEffBlur at h
  repeat' split at h
  all_goals simp_all
  exact (hev _ _ _ _ (checkNumber_ok (by assumption)) (by simp)).trans
    (hev _ _ _ _ (checkImage_ok (by assumption)) (by simp))

theorem evalArith_ok_env {ev : Env → LExpr → Env × Except EvalErr DataType}
    {env : Env} {op : String} {args : List LExpr} {env2 : Env} {v : DataType}
    (hev : ∀ env e env2 v, ev env e = (env2, Except.ok v) → v ≠ DataType.Nil → env2 = env)
    (h : evalArith ev env op args = (env2, Except.ok v)) : env2 = env := by
  unfold evalArith at h
  repeat' split at h
  all_goals simp_all
  all_goals
    exact (hev _ _ _ _ (checkNumber_ok (by assumption)) (by simp)).trans
      (hev _ _ _ _ (checkNumber_ok (by assumption)) (by simp))

theorem evalImgMix_ok_env {ev : Env → LExpr → Env × Except EvalErr DataType}
    {env : Env} {args : List LExpr} {env2 : Env} {v : DataType}
    (hev : ∀ env e env2 v, ev env e = (env2, Except.ok v) → v ≠ DataType.Nil → env2 = env)
    (h : evalImgMix ev env args = (env2, Except.ok v)) : env2 = env := by
  unfold evalImgMix at h
  repeat' split at h
  all_goals simp_all
  exact ((hev _ _ _ _ (checkSym_ok (by assumption)) (by simp)).trans
    (hev _ _ _ _ (checkImage_ok (by assumption)) (by simp))).trans
    (hev _ _ _ _ (checkImage_ok (by assumption)) (by simp))

theorem evalImgResize_ok_env {ev : Env → LExpr → Env × Except EvalErr DataType}
    {env : Env} {args : List LExpr} {env2 : Env} {v : DataType}
    (hev : ∀ env e env2 v, ev env e = (env2, Except.ok v) → v ≠ DataType.Nil → env2 = env)
    (h : evalImgResize ev env args = (env2, Except.ok v)) : env2 = env := by
  unfold evalImgResize at h
  repeat' split at h
  all_goals simp_all
  all_goals
    exact (((hev _ _ _ _ (checkNumber_ok (by assumption)) (by simp)).trans
      (hev _ _ _ _ (checkNumber_ok (by assumption)) (by simp))).trans
      (hev _ _ _ _ (checkSym_ok (by assumption)) (by simp))).trans
      (hev _ _ _ _ (checkImage_ok (by assumption)) (by simp))

theorem evalImgMove_ok_env {ev : Env → LExpr → Env × Except EvalErr DataType}
    {env : Env} {args : List LExpr} {env2 : Env} {v : DataType}
    (hev : ∀ env e env2 v, ev env e = (env2, Except.ok v) → v ≠ DataType.Nil → env2 = env)
    (h : evalImgMove ev env args = (env2, Except.ok v)) : env2 = env := by
  unfold evalImgMove at h
  repeat' split at h
  all_goals simp_all
  all_goals
    exact (((hev _ _ _ _ (checkSym_ok (by assumption)) (by simp)).trans
      (hev _ _ _ _ (checkNumber_ok (by assumption)) (by simp))).trans
      (hev _ _ _ _ (checkNumber_ok (by assumption)) (by simp))).trans
      (hev _ _ _ _ (checkImage_ok (by assumption)) (by simp))

theorem evalArrow_ok_env {ext : External} {ev : Env → LExpr → Env × Except EvalErr DataType}
    {env : Env} {args : List LExpr} {env2 : Env} {v : DataType}
    (hev : ∀ env e env2 v, ev env e = (env2, Except.ok v) → v ≠ DataType.Nil → env2 = env)
    (h : evalArrow ext ev env args = (env2, Except.ok v)) (hv : v ≠ DataType.Nil) :
    env2 = env := by
  unfold evalArrow at h
  repeat' split at h
  all_goals simp_all
  all_goals exact hev _ _ _ _ h hv

theorem eval_expr_ok_env (ext : External) :
    ∀ (fuel : ℕ) (env : Env) (e : LExpr) (env2 : Env) (v : DataType),
      eval_expr ext fuel env e = (env2, Except.ok v) → v ≠ DataType.Nil → env2 = env := by
  intro fuel
  induction fuel with
  | zero =>
    intro env e env2 v h hv
    simp [eval_expr] at h
  | succ n ih =>
    intro env e env2 v h hv
    cases e with
    | Error => simp [eval_expr] at h
    | Nil => simp [eval_expr] at h
    | Int k => simp [eval_expr] at h; exact h.1.symm
    | Float x => simp [eval_expr] at h; exact h.1.symm
    | Str s => simp [eval_expr] at h; exact h.1.symm
    | Sym s =>
      simp only [eval_expr] at h
      split at h
      · simp at h; exact h.1.symm
      · simp at h
    | Quote q =>
      cases q <;> simp [eval_expr] at h
      exact h.1.symm
    | Vec es => simp [eval_expr] at h
    | Cons l =>
      cases l with
      | nil => simp [eval_expr] at h
      | cons f args =>
        cases f with
        | Error => simp [eval_expr] at h
        | Nil => simp [eval_expr] at h
        | Int k => simp [eval_expr] at h
        | Float x => simp [eval_expr] at h
        | Str s => simp [eval_expr] at h
        | Cons es => simp [eval_expr] at h
        | Vec es => simp [eval_expr] at h
        | Quote q => simp [eval_expr] at h
        | Sym s =>
          simp only [eval_expr] at h
          split at h
          all_goals
            first
            | exact absurd (evalCanvas_ok_nil h) hv
            | exact absurd (evalImgRender_ok_nil h) hv
            | exact absurd (evalDef_ok_nil h) hv
            | exact evalImgLoad_ok_env ih h
            | exact evalImgResize_ok_env ih h
            | exact evalImgMove_ok_env ih h
            | exact evalImgMix_ok_env ih h
            | exact evalEffBlur_ok_env ih h
            | exact evalArrow_ok_env ih h hv
            | exact evalArith_ok_env ih h
            | simp at h

theorem eval_mix_eq {ext : External} {fuel : ℕ} {env env1 env2 env3 : Env}
    {e1 e2 e3 : LExpr} {a b : Image} {m : String} {bm : BlendMode}
    (h1 : eval_expr ext fuel env e1 = (env1, .ok (.Image a)))
    (h2 : eval_expr ext fuel env1 e2 = (env2, .ok (.Image b)))
    (h3 : eval_expr ext fuel env2 e3 = (env3, .ok (.Sym m)))
    (hm : parseBlendMode m = some bm) :
    eval_expr ext (fuel + 1) env (.Cons [.Sym "img-mix", e1, e2, e3]) =
      (env3, .ok (.Image (a.blend_images b bm))) := by
  simp [eval_expr, evalImgMix, checkImage, checkSym, h1, h2, h3, hm]

theorem eval_canvas_eq {ext : External} {fuel : ℕ} {env env1 env2 : Env}
    {we he : LExpr} {w h : ℚ}
    (h1 : eval_expr ext fuel env we = (env1, .ok (.Number w)))
    (h2 : eval_expr ext fuel env1 he = (env2, .ok (.Number h))) :
    eval_expr ext (fuel + 1) env (.Cons [.Sym "canvas", we, he]) =
      ({ env2 with canvas := some (Image.new (f64AsUsize w) (f64AsUsize h)) }, .ok .Nil) := by
  simp [eval_expr, evalCanvas, h1, h2]

theorem eval_def_eq {ext : External} {fuel : ℕ} {env env1 : Env}
    {ne ve : LExpr} {v : DataType}
    (hv : eval_expr ext fuel env ve = (env1, .ok v)) :
    eval_expr ext (fuel + 1) env (.Cons [.Sym "def", ne, ve]) =
      (env1.set (render ext ne) v, .ok .Nil) := by
  simp [eval_expr, evalDef, hv]

theorem eval_div_eq {ext : External} {fuel : ℕ} {env env1 env2 : Env}
    {ea eb : LExpr} {a b : ℚ}
    (h1 : eval_expr ext fuel env ea = (env1, .ok (.Number a)))
    (h2 : eval_expr ext fuel env1 eb = (env2, .ok (.Number b))) :
    eval_expr ext (fuel + 1) env (.Cons [.Sym "/", ea, eb]) =
      (env2, if b = 0 then .error .divisionByZero else .ok (.Number (a / b))) := by
  simp [eval_expr, evalArith, checkNumber, h1, h2]
  split <;> rfl

theorem eval_mod_eq {ext : External} {fuel : ℕ} {env env1 env2 : Env}
    {ea eb : LExpr} {a b : ℚ}
    (h1 : eval_expr ext fuel env ea = (env1, .ok (.Number a)))
    (h2 : eval_expr ext fuel env1 eb = (env2, .ok (.Number b))) :
    eval_expr ext (fuel + 1) env (.Cons [.Sym "%", ea, eb]) =
      (env2, if b = 0 then .error .divisionByZero else .ok (.Number (fRem a b))) := by
  simp [eval_expr, evalArith, checkNumber, h1, h2]
  split <;> rfl

theorem sum_map_range_real (f : ℕ → ℝ) :
    ∀ n, ((List.range n).map f).sum = ∑ i in Finset.range n, f i := by
  intro n
  induction n with
  | zero => simp
  | succ n ih =>
    rw [List.range_succ, List.map_append, List.sum_append, Finset.sum_range_succ, ih]
    simp

theorem map_div_sum (l : List ℝ) (s : ℝ) :
    (l.map (fun v => v / s)).sum = l.sum / s := by
  induction l with
  | nil => simp
  | cons a t ih => simp [ih, add_div]

theorem foldl_filter_sum (g : ℕ → ℝ) (P : ℕ → Prop) [DecidablePred P] :
    ∀ (n : ℕ) (a : ℝ),
      (List.range n).foldl (fun acc k => if P k then acc + g k else acc) a =
        a + ∑ k in (Finset.range n).filter P, g k := by
  intro n
  induction n with
  | zero => intro a; simp
  | succ n ih =>
    intro a
    rw [List.range_succ, List.foldl_append, List.foldl_cons, List.foldl_nil, ih]
    rw [Finset.range_succ, Finset.filter_insert]
    by_cases hP : P n
    · rw [if_pos hP, if_pos hP, Finset.sum_insert (by simp)]
      ring
    · rw [if_neg hP, if_neg hP]

theorem convLine_eq_sum (kernel : List ℝ) (radius len : ℕ) (line : ℕ → ℝ) (pos : ℕ) :
    convLine kernel radius len line pos =
      ∑ k in (Finset.range kernel.length).filter
          (fun (k : ℕ) => 0 ≤ (pos : ℤ) + ((k : ℤ) - (radius : ℤ)) ∧
            (pos : ℤ) + ((k : ℤ) - (radius : ℤ)) < (len : ℤ)),
        kernel.getD k 0 * line ((pos : ℤ) + ((k : ℤ) - (radius : ℤ))).toNat := by
  unfold convLine
  have h := foldl_filter_sum
    (fun (k : ℕ) => kernel.getD k 0 * line ((pos : ℤ) + ((k : ℤ) - (radius : ℤ))).toNat)
    (fun (k : ℕ) => 0 ≤ (pos : ℤ) + ((k : ℤ) - (radius : ℤ)) ∧
      (pos : ℤ) + ((k : ℤ) - (radius : ℤ)) < (len : ℤ))
    kernel.length 0
  rw [zero_add] at h
  exact h

theorem gaussian_raw_sum_pos (sigma : ℝ) (r : ℕ) :
    0 < ((List.range (2 * r + 1)).map
      (fun (i : ℕ) => Real.exp (-0.5 * ((((i : ℤ) - (r : ℤ) : ℤ) : ℝ) / sigma) ^ 2))).sum := by
  apply List.sum_pos
  · intro a ha
    obtain ⟨i, _, rfl⟩ := List.mem_map.mp ha
    exact Real.exp_pos _
  · simp only [ne_eq, List.map_eq_nil_iff, List.range_eq_nil]
    omega

theorem gaussian_kernel_length (sigma : ℝ) (r : ℕ) :
    (gaussian_kernel_1d sigma r).length = 2 * r + 1 := by
  simp [gaussian_kernel_1d]

theorem gaussian_kernel_sum (sigma : ℝ) (r : ℕ) :
    (gaussian_kernel_1d sigma r).sum = 1 := by
  simp only [gaussian_kernel_1d]
  rw [map_div_sum]
  exact div_self (ne_of_gt (gaussian_raw_sum_pos sigma r))

theorem gaussian_kernel_getD (r : ℕ) (hr : 1 ≤ r) (i : ℕ) (hi : i < 2 * r + 1) :
    (gaussian_kernel_1d ((r : ℝ) / 3) r).getD i 0 =
      Real.exp (-(((i : ℤ) - (r : ℤ) : ℤ) : ℝ) ^ 2 / (2 * ((r : ℝ) / 3) ^ 2)) /
        ∑ j in Finset.range (2 * r + 1),
          Real.exp (-(((j : ℤ) - (r : ℤ) : ℤ) : ℝ) ^ 2 / (2 * ((r : ℝ) / 3) ^ 2)) := by
  have hrpos : (0 : ℝ) < (r : ℝ) := by
    have : 0 < r := hr
    exact_mod_cast this
  have hσ : ((r : ℝ) / 3) ≠ 0 := by positivity
  have hkey : ∀ x : ℝ, -0.5 * (x / ((r : ℝ) / 3)) ^ 2 = -x ^ 2 / (2 * ((r : ℝ) / 3) ^ 2) := by
    intro x
    field_simp
    ring
  have hterm : ∀ j : ℕ,
      Real.exp (-0.5 * ((((j : ℤ) - (r : ℤ) : ℤ) : ℝ) / ((r : ℝ) / 3)) ^ 2) =
      Real.exp (-(((j : ℤ) - (r : ℤ) : ℤ) : ℝ) ^ 2 / (2 * ((r : ℝ) / 3) ^ 2)) := by
    intro j
    rw [hkey]
  simp only [gaussian_kernel_1d]
  rw [List.getD_eq_getElem _ _ (by simpa using hi)]
  simp only [List.getElem_map, List.getElem_range]
  rw [sum_map_range_real, hterm i]
  congr 1
  exact Finset.sum_congr rfl (fun j _ => hterm j)

theorem blur_unfold (r : ℕ) (hr0 : r ≠ 0) (img : Image) :
    img.blur r =
      { width := img.width, height := img.height,
        pix := fun x y => Pixel.mk
          (realAsU8 (convolve_1d_cols
            (convolve_1d_rows (fun y0 x0 => ((img.pix x0 y0).r : ℝ)) img.width
              (gaussian_kernel_1d ((r : ℝ) / 3) r)) img.height
            (gaussian_kernel_1d ((r : ℝ) / 3) r) y x))
          (realAsU8 (convolve_1d_cols
            (convolve_1d_rows (fun y0 x0 => ((img.pix x0 y0).g : ℝ)) img.width
              (gaussian_kernel_1d ((r : ℝ) / 3) r)) img.height
            (gaussian_kernel_1d ((r : ℝ) / 3) r) y x))
          (realAsU8 (convolve_1d_cols
            (convolve_1d_rows (fun y0 x0 => ((img.pix x0 y0).b : ℝ)) img.width
              (gaussian_kernel_1d ((r : ℝ) / 3) r)) img.height
            (gaussian_kernel_1d ((r : ℝ) / 3) r) y x))
          (realAsU8 (convolve_1d_cols
            (convolve_1d_rows (fun y0 x0 => ((img.pix x0 y0).a : ℝ)) img.width
              (gaussian_kernel_1d ((r : ℝ) / 3) r)) img.height
            (gaussian_kernel_1d ((r : ℝ) / 3) r) y x)) } := by
  simp only [Image.blur, if_neg hr0]

/-! ## The claims -/

/-- Claim C1 (corrected): the Image returned by `img-mix` has the
dimensions of its first (bottom) operand, not the component-wise minimum
the claim states; the minimum only bounds the blended region.
`claim_C1_counterexample` refutes the claim as written. -/
theorem claim_C1_mix_dims (ext : External) (fuel : ℕ) (env env1 env2 env3 : Env)
    (e1 e2 e3 : LExpr) (a b : Image) (m : String) (bm : BlendMode)
    (h1 : eval_expr ext fuel env e1 = (env1, .ok (.Image a)))
    (h2 : eval_expr ext fuel env1 e2 = (env2, .ok (.Image b)))
    (h3 : eval_expr ext fuel env2 e3 = (env3, .ok (.Sym m)))
    (hm : parseBlendMode m = some bm) :
    eval_expr ext (fuel + 1) env (.Cons [.Sym "img-mix", e1, e2, e3]) =
      (env3, .ok (.Image (a.blend_images b bm)))
    ∧ (a.blend_images b bm).width = a.width
    ∧ (a.blend_images b bm).height = a.height :=
  ⟨eval_mix_eq h1 h2 h3 hm, blend_images_width a b bm, blend_images_height a b bm⟩

/-- Witness for `claim_C1_mix_dims` at concrete inputs. -/
theorem claim_C1_witness :
    eval_expr extId 1 envMix (.Sym "a") = (envMix, .ok (.Image imgA))
    ∧ eval_expr extId 1 envMix (.Sym "b") = (envMix, .ok (.Image imgB))
    ∧ eval_expr extId 1 envMix (.Quote (.Sym "normal")) = (envMix, .ok (.Sym "normal"))
    ∧ parseBlendMode "normal" = some .Normal
    ∧ (imgA.blend_images imgB .Normal).width = imgA.width
    ∧ (imgA.blend_images imgB .Normal).height = imgA.height :=
  ⟨rfl, rfl, rfl, rfl,
    (claim_C1_mix_dims extId 1 envMix envMix envMix envMix (.Sym "a") (.Sym "b")
      (.Quote (.Sym "normal")) imgA imgB "normal" .Normal rfl rfl rfl rfl).2.1,
    (claim_C1_mix_dims extId 1 envMix envMix envMix envMix (.Sym "a") (.Sym "b")
      (.Quote (.Sym "normal")) imgA imgB "normal" .Normal rfl rfl rfl rfl).2.2⟩

/-- Counterexample to claim C1 as written: mixing a 2×1 bottom image
with a 1×1 top image returns width 2, while the claimed component-wise
minimum is 1. -/
theorem claim_C1_counterexample :
    imageWidthOf (eval_expr extId 2 envMix mixProg) = some 2
    ∧ min imgA.width imgB.width = 1 ∧ (2 : ℕ) ≠ 1 := by
  refine ⟨rfl, rfl, by decide⟩

/-- Claim C2 (confirmed): for every pair of RGBA pixels and every mode in
Normal, Multiply, Screen, Overlay, `blend_pixel` equals the reference
algorithm of the specification (§4.4): transparent-top short-circuit,
normalization, Porter-Duff over-alpha with its zero case, premultiplied
per-channel combination by the mode formula, un-premultiplication,
scaling to `[0,255]`, clamping and 8-bit truncation. -/
theorem claim_C2_blend_pixel (m : BlendMode) (top bottom : Pixel) :
    m.blend_pixel top bottom = blendPixelSpec m top bottom := by
  cases m <;> simp only [BlendMode.blend_pixel, blendPixelSpec, clampCast_eq]

/-- Claim C3 (corrected): `img-mix(a, b, normal)` with `b` fully
transparent returns `a` pixel-for-pixel and in dimensions; with `b`
fully opaque it returns `b` pixel-for-pixel only when `b` has the same
dimensions as `a` (and 8-bit channels) — the output keeps the bottom
dimensions of the bottom operand, so the unrestricted opaque half is
refuted by `claim_C3_counterexample`. -/
theorem claim_C3_mix_normal (ext : External) (fuel : ℕ) (env env1 env2 env3 : Env)
    (e1 e2 e3 : LExpr) (a b : Image)
    (h1 : eval_expr ext fuel env e1 = (env1, .ok (.Image a)))
    (h2 : eval_expr ext fuel env1 e2 = (env2, .ok (.Image b)))
    (h3 : eval_expr ext fuel env2 e3 = (env3, .ok (.Sym "normal"))) :
    eval_expr ext (fuel + 1) env (.Cons [.Sym "img-mix", e1, e2, e3]) =
      (env3, .ok (.Image (a.blend_images b .Normal)))
    ∧ (b.allAlpha 0 → (a.blend_images b .Normal).EqPix a)
    ∧ (b.allAlpha 255 → b.channels8 → b.width = a.width → b.height = a.height →
        (a.blend_images b .Normal).EqPix b) := by
  refine ⟨eval_mix_eq h1 h2 h3 rfl, ?_, ?_⟩
  · intro ht
    refine ⟨blend_images_width a b .Normal, blend_images_height a b .Normal, ?_⟩
    intro x y hx hy
    rw [blend_images_eq]
    by_cases hin : x < min a.width b.width ∧ y < min a.height b.height
    · simp only [hin, if_true]
      exact blend_pixel_transparent_top .Normal _ _
        (ht x y (lt_of_lt_of_le hin.1 (min_le_right _ _))
          (lt_of_lt_of_le hin.2 (min_le_right _ _)))
    · simp only [hin, if_false]
  · intro hop hch hw hh
    refine ⟨?_, ?_, ?_⟩
    · rw [blend_images_width]; exact hw.symm
    · rw [blend_images_height]; exact hh.symm
    · intro x y hx hy
      rw [blend_images_width] at hx
      rw [blend_images_height] at hy
      have hxb : x < b.width := by rw [hw]; exact hx
      have hyb : y < b.height := by rw [hh]; exact hy
      have hin : x < min a.width b.width ∧ y < min a.height b.height :=
        ⟨lt_min hx hxb, lt_min hy hyb⟩
      rw [blend_images_eq]
      simp only [hin, if_true]
      exact blend_pixel_normal_opaque _ _ (hop x y hxb hyb)
        (hch x y hxb hyb).1 (hch x y hxb hyb).2.1 (hch x y hxb hyb).2.2

/-- Witness for `claim_C3_mix_normal`: the transparent-top identity at
concrete images. -/
theorem claim_C3_witness :
    imgB.allAlpha 0 ∧ (imgA.blend_images imgB .Normal).EqPix imgA :=
  ⟨fun _ _ _ _ => rfl,
    (claim_C3_mix_normal extId 1 envMix envMix envMix envMix (.Sym "a") (.Sym "b")
      (.Quote (.Sym "normal")) imgA imgB rfl rfl rfl).2.1 (fun _ _ _ _ => rfl)⟩

/-- Counterexample to claim C3 as written: a fully opaque 1×1 top image
mixed over a 2×1 bottom image yields a 2×1 result, not an image equal to
the top operand in dimensions. -/
theorem claim_C3_counterexample :
    imgBop.allAlpha 255
    ∧ imageWidthOf (eval_expr extId 2 envMixOp mixProg) = some 2
    ∧ imgBop.width = 1 ∧ (2 : ℕ) ≠ 1 :=
  ⟨fun _ _ _ _ => rfl, rfl, rfl, by decide⟩

/-- Claim C4 (confirmed): the `->` macro is a pure left-to-right
rewrite: no steps evaluates the first operand directly; a bare symbol
step `f` rewrites the accumulator `r` to `(f r)`; a non-empty list step
`(f args…)` rewrites it to `(f r args…)`; an empty list step fails with
EmptyPipelineFunction and every other step shape fails with
UnsupportedPipelineStep; evaluating the rewritten node gives the result;
`(-> 5 (+ 1) (* 2))` evaluates to 12 and `(-> 5)` to 5. -/
theorem claim_C4_pipeline :
    (∀ (ext : External) (fuel : ℕ) (env : Env) (first : LExpr),
      eval_expr ext (fuel + 1) env (.Cons [.Sym "->", first]) = eval_expr ext fuel env first)
    ∧ (∀ (ext : External) (r : LExpr) (s : String) (rest : List LExpr),
      pipeRewrite ext r (.Sym s :: rest) = pipeRewrite ext (.Cons [.Sym s, r]) rest)
    ∧ (∀ (ext : External) (r x : LExpr) (xs rest : List LExpr),
      pipeRewrite ext r (.Cons (x :: xs) :: rest) = pipeRewrite ext (.Cons (x :: r :: xs)) rest)
    ∧ (∀ (ext : External) (r : LExpr) (rest : List LExpr),
      pipeRewrite ext r (.Cons [] :: rest) = .error .emptyPipelineFunction)
    ∧ (∀ (ext : External) (r : LExpr) (rest : List LExpr) (n : ℤ),
      pipeRewrite ext r (.Int n :: rest) =
        .error (.unsupportedPipelineStep (render ext (.Int n))))
    ∧ (∀ (ext : External) (r : LExpr) (rest : List LExpr) (x : ℚ),
      pipeRewrite ext r (.Float x :: rest) =
        .error (.unsupportedPipelineStep (render ext (.Float x))))
    ∧ (∀ (ext : External) (r : LExpr) (rest : List LExpr) (s : String),
      pipeRewrite ext r (.Str s :: rest) =
        .error (.unsupportedPipelineStep (render ext (.Str s))))
    ∧ (∀ (ext : External) (r : LExpr) (rest : List LExpr),
      pipeRewrite ext r (.Nil :: rest) =
        .error (.unsupportedPipelineStep (render ext .Nil)))
    ∧ (∀ (ext : External) (r q : LExpr) (rest : List LExpr),
      pipeRewrite ext r (.Quote q :: rest) =
        .error (.unsupportedPipelineStep (render ext (.Quote q))))
    ∧ (∀ (ext : External) (r : LExpr) (es rest : List LExpr),
      pipeRewrite ext r (.Vec es :: rest) =
        .error (.unsupportedPipelineStep (render ext (.Vec es))))
    ∧ (∀ (ext : External) (r : LExpr) (rest : List LExpr),
      pipeRewrite ext r (.Error :: rest) =
        .error (.unsupportedPipelineStep (render ext .Error)))
    ∧ (∀ (ext : External) (fuel : ℕ) (env : Env) (first f : LExpr) (fs : List LExpr),
      eval_expr ext (fuel + 1) env (.Cons (.Sym "->" :: first :: f :: fs)) =
        match pipeRewrite ext first (f :: fs) with
        | .ok e2 => eval_expr ext fuel env e2
        | .error er => (env, .error er))
    ∧ (∀ (ext : External), (eval_expr ext 4 Env.new arrowProg1).2 = .ok (.Number 12))
    ∧ (∀ (ext : External), (eval_expr ext 2 Env.new arrowProg2).2 = .ok (.Number 5)) := by
  refine ⟨fun _ _ _ _ => rfl, fun _ _ _ _ => rfl, fun _ _ _ _ _ => rfl, fun _ _ _ => rfl,
    fun _ _ _ _ => rfl, fun _ _ _ _ => rfl, fun _ _ _ _ => rfl, fun _ _ _ => rfl,
    fun _ _ _ _ => rfl, fun _ _ _ _ => rfl, fun _ _ _ => rfl, ?_,
    ?_, ?_⟩
  · intro ext fuel env first f fs
    simp only [eval_expr, evalArrow, List.isEmpty_cons, if_false, Bool.false_eq_true]
    rcases pipeRewrite ext first (f :: fs) with er | e2 <;> rfl
  · intro ext
    have h : (eval_expr ext 4 Env.new arrowProg1).2 =
        .ok (.Number ((((5 : ℤ) : ℚ) + ((1 : ℤ) : ℚ)) * ((2 : ℤ) : ℚ))) := rfl
    rw [h]
    norm_num
  · intro ext
    have h : (eval_expr ext 2 Env.new arrowProg2).2 = .ok (.Number ((5 : ℤ) : ℚ)) := rfl
    rw [h]
    norm_num

/-- Claim C5 (corrected): `(canvas w h)` stores a fully transparent
image as the Environment canvas and returns Nil, but the dimensions are
the Rust saturating `f64 as usize` casts of `w` and `h`: truncation
toward zero only holds on `[0, 2^64)`, and negative operands clamp to 0
instead — `claim_C5_counterexample` refutes the unrestricted claim. -/
theorem claim_C5_canvas (ext : External) (fuel : ℕ) (env env1 env2 : Env)
    (we he : LExpr) (w h : ℚ)
    (h1 : eval_expr ext fuel env we = (env1, .ok (.Number w)))
    (h2 : eval_expr ext fuel env1 he = (env2, .ok (.Number h))) :
    eval_expr ext (fuel + 1) env (.Cons [.Sym "canvas", we, he]) =
      ({ env2 with canvas := some (Image.new (f64AsUsize w) (f64AsUsize h)) }, .ok .Nil)
    ∧ (∀ x y, (Image.new (f64AsUsize w) (f64AsUsize h)).pix x y = Pixel.transparent)
    ∧ (w < 0 → f64AsUsize w = 0)
    ∧ (0 ≤ w → (f64AsUsize w : ℤ) = min (ratTrunc w) (2 ^ 64 - 1)) := by
  refine ⟨eval_canvas_eq h1 h2, fun _ _ => rfl, ?_, ?_⟩
  · intro hneg
    simp [f64AsUsize, hneg]
  · intro hpos
    have htr : 0 ≤ ratTrunc w := by
      rw [ratTrunc_of_nonneg hpos]
      exact Int.floor_nonneg.mpr hpos
    simp only [f64AsUsize, if_neg (not_lt.mpr hpos)]
    push_cast
    omega

/-- Witness for `claim_C5_canvas` at concrete operands 3 and 2. -/
theorem claim_C5_witness :
    eval_expr extId 1 Env.new (.Int 3) = (Env.new, .ok (.Number ((3 : ℤ) : ℚ)))
    ∧ eval_expr extId 1 Env.new (.Int 2) = (Env.new, .ok (.Number ((2 : ℤ) : ℚ)))
    ∧ (∀ x y, (Image.new (f64AsUsize ((3 : ℤ) : ℚ)) (f64AsUsize ((2 : ℤ) : ℚ))).pix x y =
        Pixel.transparent)
    ∧ (0 ≤ ((3 : ℤ) : ℚ) →
        (f64AsUsize ((3 : ℤ) : ℚ) : ℤ) = min (ratTrunc ((3 : ℤ) : ℚ)) (2 ^ 64 - 1)) :=
  ⟨rfl, rfl,
    (claim_C5_canvas extId 1 Env.new Env.new Env.new (.Int 3) (.Int 2)
      ((3 : ℤ) : ℚ) ((2 : ℤ) : ℚ) rfl rfl).2.1,
    (claim_C5_canvas extId 1 Env.new Env.new Env.new (.Int 3) (.Int 2)
      ((3 : ℤ) : ℚ) ((2 : ℤ) : ℚ) rfl rfl).2.2.2⟩

/-- Counterexample to claim C5 as written: `(canvas (- 0 1) 2)` stores
a canvas of width 0, while truncation toward zero of -1 is -1. -/
theorem claim_C5_counterexample :
    ((eval_expr extId 3 Env.new canvasNegProg).1.canvas.map Image.width) = some 0
    ∧ ratTrunc (-1 : ℚ) = -1
    ∧ ((0 : ℤ) ≠ -1) := by
  have hm1 : f64AsUsize (-1 : ℚ) = 0 := by
    rw [f64AsUsize, if_pos]
    norm_num
  have hceil : ratTrunc (-1 : ℚ) = -1 := by
    rw [ratTrunc, if_neg (by norm_num)]
    have hcast : ((-1 : ℤ) : ℚ) = -1 := by norm_num
    rw [← hcast, Int.ceil_intCast]
  refine ⟨?_, hceil, by decide⟩
  have harith : eval_expr extId 2 Env.new (.Cons [.Sym "-", .Int 0, .Int 1]) =
      (Env.new, .ok (.Number (((0 : ℤ) : ℚ) - ((1 : ℤ) : ℚ)))) := rfl
  have h2 : eval_expr extId 2 Env.new (.Int 2) = (Env.new, .ok (.Number ((2 : ℤ) : ℚ))) := rfl
  rw [show canvasNegProg = .Cons [.Sym "canvas", .Cons [.Sym "-", .Int 0, .Int 1], .Int 2]
    from rfl]
  rw [show (3 : ℕ) = 2 + 1 from rfl, eval_canvas_eq harith h2]
  have hval : (((0 : ℤ) : ℚ) - ((1 : ℤ) : ℚ)) = -1 := by norm_num
  simp only [Image.new, hval, hm1]
  rfl

/-- Claim C6 (confirmed): for radius `r ≥ 1` the blur kernel has length
`2·r+1`, is the normalized Gaussian with `sigma = r/3` (each entry is
`exp(-x²/(2σ²))` divided by the sum over all taps) and sums to 1; the
blur applies a horizontal then a vertical 1-D pass to each of the four
channels including alpha; and at each output sample a convolution pass
sums exactly the kernel-weighted in-bounds neighbours, with no
renormalization for taps that fall outside the line. -/
theorem claim_C6_blur_kernel (r : ℕ) (hr : 1 ≤ r) :
    (gaussian_kernel_1d ((r : ℝ) / 3) r).length = 2 * r + 1
    ∧ (gaussian_kernel_1d ((r : ℝ) / 3) r).sum = 1
    ∧ (∀ i, i < 2 * r + 1 →
        (gaussian_kernel_1d ((r : ℝ) / 3) r).getD i 0 =
          Real.exp (-(((i : ℤ) - (r : ℤ) : ℤ) : ℝ) ^ 2 / (2 * ((r : ℝ) / 3) ^ 2)) /
            ∑ j in Finset.range (2 * r + 1),
              Real.exp (-(((j : ℤ) - (r : ℤ) : ℤ) : ℝ) ^ 2 / (2 * ((r : ℝ) / 3) ^ 2)))
    ∧ (∀ img : Image, (img.blur r).width = img.width ∧ (img.blur r).height = img.height)
    ∧ (∀ img : Image, img.blur r =
        { width := img.width, height := img.height,
          pix := fun x y => Pixel.mk
            (realAsU8 (convolve_1d_cols
              (convolve_1d_rows (fun y0 x0 => ((img.pix x0 y0).r : ℝ)) img.width
                (gaussian_kernel_1d ((r : ℝ) / 3) r)) img.height
              (gaussian_kernel_1d ((r : ℝ) / 3) r) y x))
            (realAsU8 (convolve_1d_cols
              (convolve_1d_rows (fun y0 x0 => ((img.pix x0 y0).g : ℝ)) img.width
                (gaussian_kernel_1d ((r : ℝ) / 3) r)) img.height
              (gaussian_kernel_1d ((r : ℝ) / 3) r) y x))
            (realAsU8 (convolve_1d_cols
              (convolve_1d_rows (fun y0 x0 => ((img.pix x0 y0).b : ℝ)) img.width
                (gaussian_kernel_1d ((r : ℝ) / 3) r)) img.height
              (gaussian_kernel_1d ((r : ℝ) / 3) r) y x))
            (realAsU8 (convolve_1d_cols
              (convolve_1d_rows (fun y0 x0 => ((img.pix x0 y0).a : ℝ)) img.width
                (gaussian_kernel_1d ((r : ℝ) / 3) r)) img.height
              (gaussian_kernel_1d ((r : ℝ) / 3) r) y x)) })
    ∧ (∀ (kernel : List ℝ) (input : ℕ → ℕ → ℝ) (width y x : ℕ), x < width →
        convolve_1d_rows input width kernel y x =
          ∑ k in (Finset.range kernel.length).filter
              (fun (k : ℕ) => 0 ≤ (x : ℤ) + ((k : ℤ) - (kernel.length / 2 : ℕ)) ∧
                (x : ℤ) + ((k : ℤ) - (kernel.length / 2 : ℕ)) < (width : ℤ)),
            kernel.getD k 0 * input y ((x : ℤ) + ((k : ℤ) - (kernel.length / 2 : ℕ))).toNat)
    ∧ (∀ (kernel : List ℝ) (input : ℕ → ℕ → ℝ) (height y x : ℕ), y < height →
        convolve_1d_cols input height kernel y x =
          ∑ k in (Finset.range kernel.length).filter
              (fun (k : ℕ) => 0 ≤ (y : ℤ) + ((k : ℤ) - (kernel.length / 2 : ℕ)) ∧
                (y : ℤ) + ((k : ℤ) - (kernel.length / 2 : ℕ)) < (height : ℤ)),
            kernel.getD k 0 * input ((y : ℤ) + ((k : ℤ) - (kernel.length / 2 : ℕ))).toNat x) := by
  refine ⟨gaussian_kernel_length _ r, gaussian_kernel_sum _ r,
    fun i hi => gaussian_kernel_getD r hr i hi, ?_, fun img => blur_unfold r (by omega) img,
    ?_, ?_⟩
  · intro img
    rw [blur_unfold r (by omega) img]
    exact ⟨rfl, rfl⟩
  · intro kernel input width y x hx
    rw [convolve_1d_rows, if_pos hx, convLine_eq_sum]
  · intro kernel input height y x hy
    rw [convolve_1d_cols, if_pos hy, convLine_eq_sum]

/-- Witness for `claim_C6_blur_kernel` at radius 1. -/
theorem claim_C6_witness :
    1 ≤ 1 ∧ (gaussian_kernel_1d ((1 : ℝ) / 3) 1).length = 2 * 1 + 1
    ∧ (gaussian_kernel_1d ((1 : ℝ) / 3) 1).sum = 1 :=
  ⟨le_refl 1, by
    have h := (claim_C6_blur_kernel 1 (le_refl 1)).1
    simpa using h, by
    have h := (claim_C6_blur_kernel 1 (le_refl 1)).2.1
    simpa using h⟩

/-- Claim C7 (confirmed): `eff-blur` with radius 0 returns its image
operand unchanged (the blur early-returns before building a kernel). -/
theorem claim_C7_blur_zero (ld : String → Option Image) (ff : ℚ → String)
    (fuel : ℕ) (env env1 : Env) (e : LExpr) (img : Image)
    (h : eval_expr ⟨ld, Image.blur, ff⟩ fuel env e = (env1, .ok (.Image img))) :
    eval_expr ⟨ld, Image.blur, ff⟩ (fuel + 1) env (.Cons [.Sym "eff-blur", e, .Int 0]) =
      (env1, .ok (.Image img)) := by
  cases fuel with
  | zero => simp [eval_expr] at h
  | succ n =>
    have h0 : eval_expr ⟨ld, Image.blur, ff⟩ (n + 1) env1 (.Int 0) =
        (env1, .ok (.Number ((0 : ℤ) : ℚ))) := rfl
    have hz : f64AsUsize ((0 : ℤ) : ℚ) = 0 := by
      norm_num [f64AsUsize, ratTrunc]
    have step : eval_expr ⟨ld, Image.blur, ff⟩ (n + 1 + 1) env
        (.Cons [.Sym "eff-blur", e, .Int 0]) =
        evalEffBlur ⟨ld, Image.blur, ff⟩ (eval_expr ⟨ld, Image.blur, ff⟩ (n + 1)) env
          [e, .Int 0] := rfl
    rw [step]
    simp only [evalEffBlur]
    rw [h]
    simp only [checkImage]
    rw [h0]
    simp only [checkNumber]
    rw [if_neg (by norm_num)]
    rw [hz]
    simp [Image.blur]

/-- Witness for `claim_C7_blur_zero` on a concrete 1×1 image. -/
theorem claim_C7_witness :
    eval_expr extBlur 1 envImg (.Sym "x") = (envImg, .ok (.Image imgB))
    ∧ eval_expr extBlur 2 envImg (.Cons [.Sym "eff-blur", .Sym "x", .Int 0]) =
        (envImg, .ok (.Image imgB)) :=
  ⟨rfl, claim_C7_blur_zero (fun _ => none) (fun _ => "") 1 envImg envImg (.Sym "x") imgB rfl⟩

/-- Claim C8 (confirmed): when its operand evaluates to an Image,
`img-render` fails with NoCanvas exactly when the Environment holds no
canvas, and on that failure the Environment — variables and canvas
slot — is returned unchanged. -/
theorem claim_C8_render_no_canvas (ext : External) (fuel : ℕ) (env env1 : Env)
    (e : LExpr) (img : Image)
    (h : eval_expr ext fuel env e = (env1, .ok (.Image img))) :
    ((eval_expr ext (fuel + 1) env (.Cons [.Sym "img-render", e])).2 = .error .noCanvas
      ↔ env.canvas = none)
    ∧ (env.canvas = none →
        eval_expr ext (fuel + 1) env (.Cons [.Sym "img-render", e]) =
          (env, .error .noCanvas)) := by
  have henv : env1 = env := eval_expr_ok_env ext fuel env e env1 _ h (by simp)
  rw [henv] at h
  rcases hc : env.canvas with _ | c
  · constructor
    · simp [eval_expr, evalImgRender, h, hc]
    · intro _
      simp [eval_expr, evalImgRender, h, hc]
  · constructor
    · simp [eval_expr, evalImgRender, h, hc]
    · intro hcn
      simp at hcn

/-- Witness for `claim_C8_render_no_canvas` on an environment with an
image variable and no canvas. -/
theorem claim_C8_witness :
    eval_expr extId 1 envImg (.Sym "x") = (envImg, .ok (.Image imgB))
    ∧ ((eval_expr extId 2 envImg renderXProg).2 = .error .noCanvas ↔ envImg.canvas = none)
    ∧ (envImg.canvas = none →
        eval_expr extId 2 envImg renderXProg = (envImg, .error .noCanvas)) :=
  ⟨rfl,
    (claim_C8_render_no_canvas extId 1 envImg envImg (.Sym "x") imgB rfl).1,
    (claim_C8_render_no_canvas extId 1 envImg envImg (.Sym "x") imgB rfl).2⟩

/-- Claim C9 (confirmed): with both operands evaluating to Numbers,
`/` and `%` fail with DivisionByZero exactly when the second operand is
0 and otherwise return the quotient and the truncated-division
remainder; `(/ 1 0)` and `(% 1 0)` both yield DivisionByZero. -/
theorem claim_C9_div_mod :
    (∀ (ext : External) (fuel : ℕ) (env env1 env2 : Env) (ea eb : LExpr) (a b : ℚ),
      eval_expr ext fuel env ea = (env1, .ok (.Number a)) →
      eval_expr ext fuel env1 eb = (env2, .ok (.Number b)) →
      eval_expr ext (fuel + 1) env (.Cons [.Sym "/", ea, eb]) =
        (env2, if b = 0 then .error .divisionByZero else .ok (.Number (a / b)))
      ∧ eval_expr ext (fuel + 1) env (.Cons [.Sym "%", ea, eb]) =
        (env2, if b = 0 then .error .divisionByZero else .ok (.Number (fRem a b))))
    ∧ ((eval_expr extId 2 Env.new divZeroProg).2 = .error .divisionByZero)
    ∧ ((eval_expr extId 2 Env.new modZeroProg).2 = .error .divisionByZero) := by
  refine ⟨fun ext fuel env env1 env2 ea eb a b h1 h2 => ⟨eval_div_eq h1 h2, eval_mod_eq h1 h2⟩, ?_, ?_⟩
  · have h1 : eval_expr extId 1 Env.new (.Int 1) = (Env.new, .ok (.Number ((1 : ℤ) : ℚ))) := rfl
    have h2 : eval_expr extId 1 Env.new (.Int 0) = (Env.new, .ok (.Number ((0 : ℤ) : ℚ))) := rfl
    rw [show divZeroProg = .Cons [.Sym "/", .Int 1, .Int 0] from rfl,
      show (2 : ℕ) = 1 + 1 from rfl, eval_div_eq h1 h2]
    norm_num
  · have h1 : eval_expr extId 1 Env.new (.Int 1) = (Env.new, .ok (.Number ((1 : ℤ) : ℚ))) := rfl
    have h2 : eval_expr extId 1 Env.new (.Int 0) = (Env.new, .ok (.Number ((0 : ℤ) : ℚ))) := rfl
    rw [show modZeroProg = .Cons [.Sym "%", .Int 1, .Int 0] from rfl,
      show (2 : ℕ) = 1 + 1 from rfl, eval_mod_eq h1 h2]
    norm_num

/-- Witness for `claim_C9_div_mod` at `(/ 6 4)` and `(% 6 4)`. -/
theorem claim_C9_witness :
    eval_expr extId 1 Env.new (.Int 6) = (Env.new, .ok (.Number ((6 : ℤ) : ℚ)))
    ∧ eval_expr extId 1 Env.new (.Int 4) = (Env.new, .ok (.Number ((4 : ℤ) : ℚ)))
    ∧ eval_expr extId 2 Env.new (.Cons [.Sym "/", .Int 6, .Int 4]) =
        (Env.new, if ((4 : ℤ) : ℚ) = 0 then .error .divisionByZero
          else .ok (.Number (((6 : ℤ) : ℚ) / ((4 : ℤ) : ℚ))))
    ∧ eval_expr extId 2 Env.new (.Cons [.Sym "%", .Int 6, .Int 4]) =
        (Env.new, if ((4 : ℤ) : ℚ) = 0 then .error .divisionByZero
          else .ok (.Number (fRem ((6 : ℤ) : ℚ) ((4 : ℤ) : ℚ)))) :=
  ⟨rfl, rfl,
    (claim_C9_div_mod.1 extId 1 Env.new Env.new Env.new (.Int 6) (.Int 4)
      ((6 : ℤ) : ℚ) ((4 : ℤ) : ℚ) rfl rfl).1,
    (claim_C9_div_mod.1 extId 1 Env.new Env.new Env.new (.Int 6) (.Int 4)
      ((6 : ℤ) : ℚ) ((4 : ℤ) : ℚ) rfl rfl).2⟩

/-- Claim C10 (confirmed): `def` never evaluates its name operand and
performs no symbol check: for every first operand node it binds that
textual rendering of that node (its Display form) to the value of the second
operand and returns Nil — an integer literal or a parenthesized list
works as a variable name. -/
theorem claim_C10_def :
    (∀ (ext : External) (fuel : ℕ) (env env1 : Env) (ne ve : LExpr) (v : DataType),
      eval_expr ext fuel env ve = (env1, .ok v) →
      eval_expr ext (fuel + 1) env (.Cons [.Sym "def", ne, ve]) =
        (env1.set (render ext ne) v, .ok .Nil))
    ∧ ((eval_expr extId 2 Env.new defConsProg).1.get "(a b)" = some (.Number ((1 : ℤ) : ℚ)))
    ∧ ((eval_expr extId 2 Env.new defIntProg).1.get "5" = some (.Str "v")) := by
  refine ⟨fun ext fuel env env1 ne ve v hv => eval_def_eq hv, ?_, ?_⟩
  · have hv : eval_expr extId 1 Env.new (.Int 1) = (Env.new, .ok (.Number ((1 : ℤ) : ℚ))) := rfl
    rw [show defConsProg = .Cons [.Sym "def", .Cons [.Sym "a", .Sym "b"], .Int 1] from rfl,
      show (2 : ℕ) = 1 + 1 from rfl, eval_def_eq hv]
    have hr : render extId (.Cons [.Sym "a", .Sym "b"]) = "(a b)" := by
      simp [render, renderItems, extId]
    rw [hr]
    rfl
  · have hv : eval_expr extId 1 Env.new (.Str "v") = (Env.new, .ok (.Str "v")) := rfl
    rw [show defIntProg = .Cons [.Sym "def", .Int 5, .Str "v"] from rfl,
      show (2 : ℕ) = 1 + 1 from rfl, eval_def_eq hv]
    have hr : render extId (.Int 5) = "5" := by
      simp only [render]
      rfl
    rw [hr]
    rfl

/-- Witness for `claim_C10_def` with a parenthesized list as the
name. -/
theorem claim_C10_witness :
    eval_expr extId 1 Env.new (.Int 1) = (Env.new, .ok (.Number ((1 : ℤ) : ℚ)))
    ∧ eval_expr extId 2 Env.new (.Cons [.Sym "def", .Cons [.Sym "a", .Sym "b"], .Int 1]) =
        (Env.new.set (render extId (.Cons [.Sym "a", .Sym "b"])) (.Number ((1 : ℤ) : ℚ)),
          .ok .Nil) :=
  ⟨rfl,
    claim_C10_def.1 extId 1 Env.new Env.new (.Cons [.Sym "a", .Sym "b"]) (.Int 1)
      (.Number ((1 : ℤ) : ℚ)) rfl⟩
